import Mathlib

set_option autoImplicit false

namespace EmailReminder

/-
Shallow embedding of the email-reminder repository.

Components modelled:
  - src/src/jiraService.ts: auth-header construction, the JiraService
    operations getActiveSprintIssues / getBoardIssues / testConnection /
    getBoardInfo, and the raw-to-mapped issue transformation;
  - src/unnamed/part_001 (the REST batch email reporter): formatIssuesTable,
    sendEmail, fetchJiraIssuesFromBoard, getJiraIssues;
  - src/unnamed/part_000 (the MCP tool server): validateJiraConfig and the
    read-description / read-comments tool handlers.

The external collaborators (tracker HTTP API, mail transport) are modelled
as environments holding the response each endpoint would produce; a failed
request is an Except.error value, mirroring a rejected promise.
-/

/-- Mapped issue record, interface JiraIssue of jiraService.ts. -/
structure JiraIssue where
  key : String
  summary : String
  status : String
  assignee : String
  issueType : String
  priority : String
deriving DecidableEq, Repr

/-- Raw assignee object of a tracker response (field displayName). -/
structure ApiAssignee where
  displayName : String
deriving DecidableEq, Repr

/-- Raw named object of a tracker response (status, issuetype, priority all
carry a single name field). -/
structure ApiName where
  name : String
deriving DecidableEq, Repr

/-- Raw issue fields of a tracker response, interface JiraApiIssue.fields of
jiraService.ts; assignee and priority may be null. -/
structure JiraApiFields where
  summary : String
  status : ApiName
  assignee : Option ApiAssignee
  issuetype : ApiName
  priority : Option ApiName
deriving DecidableEq, Repr

/-- Raw issue of a tracker response, interface JiraApiIssue of
jiraService.ts. -/
structure JiraApiIssue where
  key : String
  fields : JiraApiFields
deriving DecidableEq, Repr

/-- Model of the JS expression o?.f || dflt on an optional object with a
string field: the default is taken when the object is null and also when
the field holds the empty string, which is falsy in JS. -/
def jsStrOr (o : Option String) (dflt : String) : String :=
  match o with
  | none => dflt
  | some s => if s = "" then dflt else s

/-- Per-issue transformation of jiraService.ts, written inline in
getActiveSprintIssues (lines 132-139) and verbatim again in getBoardIssues
(lines 171-178). -/
def transformIssue (issue : JiraApiIssue) : JiraIssue :=
  { key := issue.key
    summary := issue.fields.summary
    status := issue.fields.status.name
    assignee := jsStrOr (issue.fields.assignee.map ApiAssignee.displayName) "Unassigned"
    issueType := issue.fields.issuetype.name
    priority := jsStrOr (issue.fields.priority.map ApiName.name) "Medium" }

/-
Report formatter: formatIssuesTable of part_001, lines 69-98.  The reduce
accumulator is a plain JS object created as a literal, so its prototype is
Object.prototype: a property read falls through to the prototype chain,
and a property write can hit an inherited accessor.  The model carries the
own properties as an insertion-ordered association list, the values a
property can hold during the fold (numbers and, once an inherited function
was read, concatenated strings), the own members of Object.prototype a
read can reach, the silent no-op the inherited proto accessor performs on
assignment of a non-object value, and the enumeration order Object.entries
imposes on the own properties.
-/

/-- Value an own property of the accumulator can hold, or a read can
produce: a number, a string (JS + concatenates once one operand is not a
number), or the Object.prototype object itself, which the proto getter
returns. -/
inductive JsVal where
  | num (n : Nat)
  | str (s : String)
  | objProto
deriving DecidableEq, Repr

/-- Own data properties of Object.prototype, each paired with the source
string Function.prototype.toString renders for the built-in in Node; a
read of one of these names on an empty object literal finds the inherited
function.  The proto accessor is modelled separately. -/
def objectProtoFns : List (String × String) :=
  [("constructor", "function Object() \x7b [native code] \x7d"),
   ("hasOwnProperty", "function hasOwnProperty() \x7b [native code] \x7d"),
   ("isPrototypeOf", "function isPrototypeOf() \x7b [native code] \x7d"),
   ("propertyIsEnumerable", "function propertyIsEnumerable() \x7b [native code] \x7d"),
   ("toLocaleString", "function toLocaleString() \x7b [native code] \x7d"),
   ("toString", "function toString() \x7b [native code] \x7d"),
   ("valueOf", "function valueOf() \x7b [native code] \x7d"),
   ("__defineGetter__", "function __defineGetter__() \x7b [native code] \x7d"),
   ("__defineSetter__", "function __defineSetter__() \x7b [native code] \x7d"),
   ("__lookupGetter__", "function __lookupGetter__() \x7b [native code] \x7d"),
   ("__lookupSetter__", "function __lookupSetter__() \x7b [native code] \x7d")]

/-- Record model of the own properties of a JS object literal: an
insertion-ordered association list whose keys are unique by construction. -/
abbrev JsRecord := List (String × JsVal)

/-- Reading acc[k]: the own entry when present; otherwise the read reaches
Object.prototype, where the key proto hits the inherited getter, which
returns the prototype object, and a built-in method name yields that
function, rendered by its source string; any other key is undefined,
modelled as none. -/
def recRead (r : JsRecord) (k : String) : Option JsVal :=
  match r.lookup k with
  | some v => some v
  | none =>
    if k = "__proto__" then some .objProto
    else (objectProtoFns.lookup k).map JsVal.str

/-- Model of the JS expression x || 0 on a read result: undefined, the
number 0 and the empty string are falsy and give the default 0; everything
else passes through. -/
def jsOrZero : Option JsVal → JsVal
  | none => .num 0
  | some (.num n) => .num n
  | some (.str s) => if s = "" then .num 0 else .str s
  | some .objProto => .objProto

/-- JS addition of 1: numeric on a number; on anything else the operand is
converted to its string (ToPrimitive on a function yields its source, on a
plain object the tag string) and 1 is concatenated. -/
def jsAdd1 : JsVal → JsVal
  | .num n => .num (n + 1)
  | .str s => .str (s ++ "1")
  | .objProto => .str ("[object Object]" ++ "1")

/-- Writing acc[k] = v: assigning through the key proto invokes the
inherited accessor, which ignores a non-object value and creates no own
property; every other key receives an own data property (the built-in
method names are writable data properties on the prototype, so assignment
shadows them), updated in place when already present and appended
otherwise. -/
def recSet (r : JsRecord) (k : String) (v : JsVal) : JsRecord :=
  if k = "__proto__" then r
  else if r.any (fun p => p.1 == k) then
    r.map (fun p => if p.1 == k then (k, v) else p)
  else r ++ [(k, v)]

/-- Digit test on a character, via its code point. -/
def isDigitChar (c : Char) : Bool :=
  48 ≤ c.toNat && c.toNat ≤ 57

/-- Numeric value of a digit string. -/
def digitsVal (l : List Char) : Nat :=
  l.foldl (fun n c => n * 10 + (c.toNat - 48)) 0

/-- Decimal parse of a string: some value exactly when the string is
nonempty and consists of digits. -/
def strToNat (s : String) : Option Nat :=
  if s.data ≠ [] ∧ s.data.all isDigitChar then some (digitsVal s.data) else none

/-- Canonical array-index test for a JS object key: a key counts as an
array index exactly when it is the canonical decimal string of a natural
number below 2^32 - 1.  ECMAScript enumerates such keys first, in ascending
numeric order, before the string keys in insertion order. -/
def canonicalIndex (s : String) : Option Nat :=
  match strToNat s with
  | some n => if toString n = s ∧ n < 4294967295 then some n else none
  | none => none

/-- Sort key ordering the array-index entries of a record. -/
def idxVal {α : Type} (p : String × α) : Nat :=
  (canonicalIndex p.1).getD 0

/-- Insertion of an entry into a list sorted by idxVal. -/
def insertByIdx {α : Type} (p : String × α) : List (String × α) → List (String × α)
  | [] => [p]
  | q :: qs => if idxVal p ≤ idxVal q then p :: q :: qs else q :: insertByIdx p qs

/-- Enumeration order of Object.entries on the own properties of a
string-keyed object: keys that are canonical array indices come first in
ascending numeric order, followed by the remaining keys in insertion
order. -/
def jsEntries {α : Type} (r : List (String × α)) : List (String × α) :=
  (r.filter (fun p => (canonicalIndex p.1).isSome)).foldr insertByIdx []
    ++ r.filter (fun p => (canonicalIndex p.1).isNone)

/-- Folding step of the reduce in formatIssuesTable:
acc[issue.status] = (acc[issue.status] || 0) + 1. -/
def countStep (acc : JsRecord) (issue : JiraIssue) : JsRecord :=
  recSet acc issue.status (jsAdd1 (jsOrZero (recRead acc issue.status)))

/-- Count of issues by status: the reduce of formatIssuesTable, line 71. -/
def statusCount (issues : List JiraIssue) : JsRecord :=
  issues.foldl countStep []

/-- Rendering of a value interpolated into a template literal. -/
def jsValRender : JsVal → String
  | .num n => toString n
  | .str s => s
  | .objProto => "[object Object]"

/-- Summary lines built by formatIssuesTable: the total, a heading, and one
line per own entry of the accumulator in Object.entries order. -/
def summaryLines (issues : List JiraIssue) : List String :=
  ("Total issues: " ++ toString issues.length) :: "Issues by Status:" ::
    (jsEntries (statusCount issues)).map
      (fun p => p.1 ++ ": " ++ jsValRender p.2 ++ " issues")

/-- Result record of formatIssuesTable, interface FormattedIssues. -/
structure FormattedIssues where
  summary : String
  table : String
deriving DecidableEq, Repr

/-- Row of the tab-delimited table for one issue, line 91 of part_001. -/
def tableRow (issue : JiraIssue) : String :=
  issue.key ++ "\t" ++ issue.summary ++ "\t" ++ issue.assignee ++ "\t" ++ issue.status

/-- Embedding of formatIssuesTable, part_001 lines 69-98. -/
def formatIssuesTable (issues : List JiraIssue) : FormattedIssues :=
  { summary := String.intercalate "\n" (summaryLines issues)
    table := "Issue\tTitle\tAssignee\tStatus" ++ "\n"
      ++ String.intercalate "\n" (issues.map tableRow) }

/-
Authentication header: constructAuthHeader of jiraService.ts, lines 39-54,
together with the config object and the two axios instances (lines 56-83).
Base64 is modelled over UTF-8 byte sequences, written as naturals below 256.
-/

/-- UTF-8 byte sequence of one character. -/
def utf8Bytes (c : Char) : List Nat :=
  let n := c.toNat
  if n < 128 then [n]
  else if n < 2048 then [192 + n / 64, 128 + n % 64]
  else if n < 65536 then [224 + n / 4096, 128 + (n / 64) % 64, 128 + n % 64]
  else [240 + n / 262144, 128 + (n / 4096) % 64, 128 + (n / 64) % 64, 128 + n % 64]

/-- UTF-8 bytes of a string: the view Buffer.from takes of it. -/
def strBytes (s : String) : List Nat :=
  s.data.flatMap utf8Bytes

/-- Character of the standard base64 alphabet at a six-bit index. -/
def base64Char (n : Nat) : Char :=
  if n < 26 then Char.ofNat (65 + n)
  else if n < 52 then Char.ofNat (97 + (n - 26))
  else if n < 62 then Char.ofNat (48 + (n - 52))
  else if n = 62 then Char.ofNat 43
  else Char.ofNat 47

/-- Standard base64 encoding of a byte sequence, with padding, as produced
by Buffer.toString with the base64 encoding. -/
def base64EncodeBytes : List Nat → List Char
  | b1 :: b2 :: b3 :: rest =>
    base64Char (b1 / 4) :: base64Char ((b1 % 4) * 16 + b2 / 16)
      :: base64Char ((b2 % 16) * 4 + b3 / 64) :: base64Char (b3 % 64)
        :: base64EncodeBytes rest
  | [b1, b2] =>
    [base64Char (b1 / 4), base64Char ((b1 % 4) * 16 + b2 / 16),
      base64Char ((b2 % 16) * 4), Char.ofNat 61]
  | [b1] =>
    [base64Char (b1 / 4), base64Char ((b1 % 4) * 16), Char.ofNat 61, Char.ofNat 61]
  | [] => []

/-- Six-bit value of a base64 alphabet character, none for every other
character; the Node decoder accepts the standard and the URL-safe
alphabet. -/
def base64Val (c : Char) : Option Nat :=
  if 65 ≤ c.toNat ∧ c.toNat ≤ 90 then some (c.toNat - 65)
  else if 97 ≤ c.toNat ∧ c.toNat ≤ 122 then some (c.toNat - 97 + 26)
  else if 48 ≤ c.toNat ∧ c.toNat ≤ 57 then some (c.toNat - 48 + 52)
  else if c.toNat = 43 ∨ c.toNat = 45 then some 62
  else if c.toNat = 47 ∨ c.toNat = 95 then some 63
  else none

/-- Regrouping of six-bit values into bytes; a trailing group of fewer than
four values contributes only its complete bytes. -/
def sextetsToBytes : List Nat → List Nat
  | a :: b :: c :: d :: rest =>
    (a * 4 + b / 16) :: ((b % 16) * 16 + c / 4) :: ((c % 4) * 64 + d)
      :: sextetsToBytes rest
  | [a, b, c] => [a * 4 + b / 16, (b % 16) * 16 + c / 4]
  | [a, b] => [a * 4 + b / 16]
  | [_] => []
  | [] => []

/-- Byte sequence of Buffer.from with the base64 encoding: the Node decoder
is lenient and total, skipping padding, whitespace and every character
outside the alphabet. -/
def nodeBase64DecodeBytes (s : String) : List Nat :=
  sextetsToBytes (s.data.filterMap base64Val)

/-- Embedding of constructAuthHeader, jiraService.ts lines 39-54.  The
decoded token is checked for a colon: the code calls includes on the string
Buffer.toString renders, and a colon appears in that string exactly when
byte 58 appears in the decoded buffer, since a byte below 128 never occurs
inside a multi-byte UTF-8 sequence.  A token that decodes to a
colon-containing string is passed through untouched; otherwise the header
encodes email:token.  The try/catch around the decode never fires, the
lenient decoder being total. -/
def constructAuthHeader (email token : String) : String :=
  if (nodeBase64DecodeBytes token).contains 58 then
    "Basic " ++ token
  else
    "Basic " ++ String.mk (base64EncodeBytes (strBytes (email ++ ":" ++ token)))

/-- Value of the AUTH_HEADER field of the config object, jiraService.ts
lines 59-61: present only when JIRA_USERNAME and JIRA_PASSWORD are both set
and truthy, the empty string being falsy. -/
def serviceAuthHeader (username password : Option String) : Option String :=
  match username, password with
  | some u, some p => if u ≠ "" ∧ p ≠ "" then some (constructAuthHeader u p) else none
  | _, _ => none

/-- Authorization header of the axios instance for the plain API base,
jiraService.ts lines 68-74: the AUTH_HEADER of the config object. -/
def jiraApiAuthHeader (authHeader : Option String) : Option String :=
  authHeader

/-- Authorization header of the axios instance for the agile API base,
jiraService.ts lines 77-83: the AUTH_HEADER of the config object. -/
def jiraAgileApiAuthHeader (authHeader : Option String) : Option String :=
  authHeader

/-
Issue source: the JiraService operations, with the tracker modelled as an
environment holding the response each endpoint would produce.
-/

/-- Sprint object of a board-sprint response, with the two fields the code
reads. -/
structure Sprint where
  id : Nat
  name : String
deriving DecidableEq, Repr

/-- Responses the tracker would give to each endpoint the service queries.
A failed request is an error value carrying the failure text, mirroring a
rejected promise; an Option payload models a JSON field that may be absent
or null. -/
structure TrackerEnv where
  boardSprints : String → Except String (Option (List Sprint))
  sprintIssuesData : Nat → Except String (Option (List JiraApiIssue))
  boardIssuesData : String → Except String (Option (List JiraApiIssue))
  boardInfo : String → Except String Unit
  myselfOk : Bool

/-- Response of GET sprint/id/issue with a maxResults parameter: the
tracker returns at most maxResults issues of the sprint (the documented
contract of the query parameter); the issues field may still be absent. -/
def TrackerEnv.sprintIssueResp (env : TrackerEnv) (sprintId maxResults : Nat) :
    Except String (Option (List JiraApiIssue)) :=
  (env.sprintIssuesData sprintId).map (Option.map (List.take maxResults))

/-- Response of GET board/id/issue with a maxResults parameter, truncated
by the tracker the same way. -/
def TrackerEnv.boardIssueResp (env : TrackerEnv) (boardId : String) (maxResults : Nat) :
    Except String (Option (List JiraApiIssue)) :=
  (env.boardIssuesData boardId).map (Option.map (List.take maxResults))

/-- Embedding of JiraService.getActiveSprintIssues, jiraService.ts lines
100-151: queries the active sprints of the board, returns the empty list
when the values field is absent or empty, and otherwise maps the issues
fetched from the first active sprint with maxResults 100.  A failed request
propagates: the catch block only logs before rethrowing. -/
def getActiveSprintIssues (env : TrackerEnv) (rapidViewId : String) :
    Except String (List JiraIssue) := do
  let activeSprints ← env.boardSprints rapidViewId
  match activeSprints with
  | none => return []
  | some [] => return []
  | some (first :: _) =>
    let issuesResp ← env.sprintIssueResp first.id 100
    let issues := issuesResp.getD []
    return issues.map transformIssue

/-- Embedding of JiraService.getBoardIssues, jiraService.ts lines 156-190:
fetches up to 100 issues directly from the board and maps them. -/
def getBoardIssues (env : TrackerEnv) (rapidViewId : String) :
    Except String (List JiraIssue) := do
  let resp ← env.boardIssueResp rapidViewId 100
  let issues := resp.getD []
  return issues.map transformIssue

/-- Embedding of JiraService.testConnection, jiraService.ts lines 195-209:
true on a successful identity lookup, false when the request fails. -/
def testConnection (env : TrackerEnv) : Bool :=
  env.myselfOk

/-
Batch reporter, part_001: fetchJiraIssuesFromBoard, sendEmail and
getJiraIssues.
-/

/-- Embedding of fetchJiraIssuesFromBoard, part_001 lines 271-321, paired
with the number of getBoardIssues invocations the run performs: connection
test, board-info request, active-sprint fetch, fallback to the full board
when the active sprint yields nothing, and an error when both are empty. -/
def fetchJiraIssuesFromBoardCounted (env : TrackerEnv) (rapidViewId : String) :
    Except String (List JiraIssue) × Nat :=
  if testConnection env = false then
    (.error "Failed to connect to Jira API. Please check your credentials.", 0)
  else
    match env.boardInfo rapidViewId with
    | .error e => (.error e, 0)
    | .ok _ =>
      match getActiveSprintIssues env rapidViewId with
      | .error e => (.error e, 0)
      | .ok issues =>
        if issues.isEmpty then
          match getBoardIssues env rapidViewId with
          | .error e => (.error e, 1)
          | .ok issues2 =>
            if issues2.isEmpty then (.error "No issues found on the board", 1)
            else (.ok issues2, 1)
        else (.ok issues, 0)

/-- Result of fetchJiraIssuesFromBoard alone. -/
def fetchJiraIssuesFromBoard (env : TrackerEnv) (rapidViewId : String) :
    Except String (List JiraIssue) :=
  (fetchJiraIssuesFromBoardCounted env rapidViewId).1

/-- Reporter configuration: the environment variables sendEmail reads; an
optional recipient is none when unset. -/
structure ReporterConfig where
  senderName : String
  senderEmail : String
  docEmail1 : Option String
  docEmail2 : Option String
  docEmail3 : Option String
deriving DecidableEq, Repr

/-- Outcome record of one mail-transport submission. -/
structure SendInfo where
  messageId : String
  accepted : List String
  rejected : List String
deriving DecidableEq, Repr

/-- Mail transport collaborator: the outcome sendMail would produce. -/
structure MailEnv where
  sendMailResult : Except String SendInfo

/-- Whitespace test matching the characters String.prototype.trim strips
(ASCII whitespace and the no-break space). -/
def jsWhitespace (c : Char) : Bool :=
  c.toNat = 32 || c.toNat = 9 || c.toNat = 10 || c.toNat = 13
    || c.toNat = 11 || c.toNat = 12 || c.toNat = 160

/-- Model of String.prototype.trim. -/
def jsTrim (s : String) : String :=
  String.mk (((s.data.dropWhile jsWhitespace).reverse.dropWhile jsWhitespace).reverse)

/-- Recipient resolution of sendEmail, part_001 lines 150-154: the three
optional addresses, kept when set and nonblank, in order. -/
def resolveRecipients (cfg : ReporterConfig) : List String :=
  ([cfg.docEmail1, cfg.docEmail2, cfg.docEmail3].filterMap id).filter
    (fun e => jsTrim e ≠ "")

/-- Observable outcome of sendEmail: either the message was handed to the
transport, or the failure was caught and the would-be content logged to the
operator. -/
inductive SendLog where
  | sent (info : SendInfo) (recipients : List String)
  | failedLogged (recipients : List String) (subject summary table : String)
deriving DecidableEq, Repr

/-- Body of the try block of sendEmail: resolves recipients, throws when
none remain, and otherwise submits the message once; paired with the number
of transport submissions. -/
def sendEmailTry (cfg : ReporterConfig) (env : MailEnv) :
    Except String (SendInfo × List String) × Nat :=
  let recipients := resolveRecipients cfg
  if recipients.isEmpty then
    (.error "No valid email recipients found in environment variables", 0)
  else
    match env.sendMailResult with
    | .error e => (.error e, 1)
    | .ok info => (.ok (info, recipients), 1)

/-- Embedding of sendEmail, part_001 lines 100-269, paired with the number
of transport submissions.  Every failure inside the try block is caught by
the catch block, which logs the recipients, the subject, the summary and
the table, and falls through, so the function always returns normally; the
summary and the table were formatted before any failure point. -/
def sendEmailCounted (issues : List JiraIssue) (cfg : ReporterConfig) (env : MailEnv) :
    SendLog × Nat :=
  let fmt := formatIssuesTable issues
  match sendEmailTry cfg env with
  | (.ok (info, recipients), n) => (.sent info recipients, n)
  | (.error _, n) =>
    (.failedLogged (resolveRecipients cfg) "Sprint Update" fmt.summary fmt.table, n)

/-- Rapid-view identifier of getJiraIssues, part_001 line 327: the value of
JIRA_RAPID_VIEW, with the fallback 44313 when unset or empty. -/
def rapidViewOf (jiraRapidView : Option String) : String :=
  jsStrOr jiraRapidView "44313"

/-- Embedding of getJiraIssues, part_001 lines 323-347, paired with the
number of sendEmail invocations: fetches the issues and, when any were
found, sends the report; a fetch failure propagates to the caller. -/
def getJiraIssuesCounted (jiraRapidView : Option String) (env : TrackerEnv)
    (cfg : ReporterConfig) (mail : MailEnv) : Except String Unit × Nat :=
  let rapidViewId := rapidViewOf jiraRapidView
  match fetchJiraIssuesFromBoard env rapidViewId with
  | .error e => (.error e, 0)
  | .ok issues =>
    if issues.isEmpty then (.ok (), 0)
    else
      let _ := sendEmailCounted issues cfg mail
      (.ok (), 1)

/-
Tool server, part_000: validateJiraConfig and the read-description and
read-comments handlers.
-/

/-- Configuration of the MCP tool server, interface JiraConfig of part_000;
an unset environment variable surfaces as the empty string because of the
JS default. -/
structure McpJiraConfig where
  protocol : String
  host : String
  username : String
  password : String
  apiVersion : String
  strictSSL : Bool
deriving DecidableEq, Repr

/-- Embedding of validateJiraConfig, part_000 lines 47-52: reports the
first required value that is unset, the empty string being falsy. -/
def validateJiraConfig (cfg : McpJiraConfig) : Option String :=
  if cfg.host = "" then some "JIRA_HOST environment variable is not set"
  else if cfg.username = "" then some "JIRA_USERNAME environment variable is not set"
  else if cfg.password = "" then some "JIRA_PASSWORD environment variable is not set"
  else none

/-- Fields of a found issue the read-description handler reads; each may be
null or absent. -/
structure FoundIssueFields where
  description : Option String
  summary : Option String
  status : Option ApiName
  issuetype : Option ApiName
deriving DecidableEq, Repr

/-- Issue object resolved by findIssue. -/
structure FoundIssue where
  fields : FoundIssueFields
deriving DecidableEq, Repr

/-- Raw comment of a comments response; author and body may be null. -/
structure RawComment where
  author : Option ApiAssignee
  created : String
  body : Option String
deriving DecidableEq, Repr

/-- Comments response object; its comments field may be null. -/
structure CommentsResp where
  comments : Option (List RawComment)
deriving DecidableEq, Repr

/-- Tracker collaborator of the tool server, plus an opaque date renderer
standing for the locale-dependent toLocaleString. -/
structure McpEnv where
  findIssue : String → Except String (Option FoundIssue)
  getComments : String → Except String (Option CommentsResp)
  renderDate : String → String

/-- Result of a tool call: a single content block of type text. -/
inductive ToolResult where
  | text (s : String)
deriving DecidableEq, Repr

/-- Formatted description text, part_000 lines 108-120; every field falls
back to a placeholder when null or empty, the empty string being falsy. -/
def formatDescription (issueKey : String) (issue : FoundIssue) : String :=
  let description := jsStrOr issue.fields.description "No description available"
  let summary := jsStrOr issue.fields.summary "No summary available"
  let status := jsStrOr (issue.fields.status.map ApiName.name) "Unknown status"
  let issueType := jsStrOr (issue.fields.issuetype.map ApiName.name) "Unknown type"
  String.intercalate "\n"
    ["Issue: " ++ issueKey, "Summary: " ++ summary, "Type: " ++ issueType,
      "Status: " ++ status, "\nDescription:\n" ++ description]

/-- Embedding of the read-description tool handler, part_000 lines 73-142,
paired with the number of tracker requests made: a configuration error
short-circuits before any request, a null issue yields a not-found text,
and every thrown error is caught and rendered as text. -/
def readDescription (cfg : McpJiraConfig) (env : McpEnv) (issueKey : String) :
    ToolResult × Nat :=
  match validateJiraConfig cfg with
  | some configError => (.text ("Configuration error: " ++ configError ++ "\n\n"), 0)
  | none =>
    match env.findIssue issueKey with
    | .error e => (.text ("Failed to retrieve issue " ++ issueKey ++ ": " ++ e), 1)
    | .ok none => (.text ("Issue " ++ issueKey ++ " not found"), 1)
    | .ok (some issue) => (.text (formatDescription issueKey issue), 1)

/-- Formatted block for one comment, part_000 lines 180-191. -/
def formatComment (env : McpEnv) (comment : RawComment) : String :=
  let author := jsStrOr (comment.author.map ApiAssignee.displayName) "Unknown"
  let created := env.renderDate comment.created
  let body := jsStrOr comment.body "No content"
  String.intercalate "\n"
    ["Author: " ++ author, "Date: " ++ created, "Comment:\n" ++ body, "---"]

/-- Zero-comment test of the read-comments handler, part_000 line 168: the
response is null, or its comments field is null, or the list is empty. -/
def zeroComments : Option CommentsResp → Bool
  | none => true
  | some c =>
    match c.comments with
    | none => true
    | some [] => true
    | some (_ :: _) => false

/-- Embedding of the read-comments tool handler, part_000 lines 144-215,
paired with the number of tracker requests made; the same never-throw shape
as read-description. -/
def readComments (cfg : McpJiraConfig) (env : McpEnv) (issueKey : String) :
    ToolResult × Nat :=
  match validateJiraConfig cfg with
  | some configError => (.text ("Configuration error: " ++ configError ++ "\n\n"), 0)
  | none =>
    match env.getComments issueKey with
    | .error e =>
      (.text ("Failed to retrieve comments for issue " ++ issueKey ++ ": " ++ e), 1)
    | .ok resp =>
      if zeroComments resp then
        (.text ("No comments found for issue " ++ issueKey), 1)
      else
        (.text ("Comments for " ++ issueKey ++ ":\n\n"
          ++ String.intercalate "\n"
            (((resp.getD ⟨none⟩).comments.getD []).map (formatComment env))), 1)

/-
Specification-side definitions, used to state the claims against the
embedded code.
-/

/-- Keys of a record, in storage order. -/
def recKeys {α : Type} (r : List (String × α)) : List String :=
  r.map Prod.fst

/-- Numeric content of a stored value: the number it holds, zero when it
holds no number. -/
def jsValNum : JsVal → Nat
  | .num n => n
  | .str _ => 0
  | .objProto => 0

/-- Total of the numeric per-status counts of a record. -/
def recTotal (r : JsRecord) : Nat :=
  (r.map (fun p => jsValNum p.2)).sum

/-- Total of the counts of an abstract counting record. -/
def natRecTotal (r : List (String × Nat)) : Nat :=
  (r.map Prod.snd).sum

/-- Status values that reach no Object.prototype member: neither the proto
accessor key nor a built-in method name.  On these keys the accumulator
behaves as a pure counting dictionary. -/
def safeStatus (s : String) : Bool :=
  !(s == "__proto__") && (objectProtoFns.lookup s).isNone

/-- Abstract counting dictionary: lookup of a count. -/
def natRecGet (r : List (String × Nat)) (k : String) : Option Nat :=
  r.lookup k

/-- Abstract counting dictionary: update in place when the key is present,
append otherwise. -/
def natRecSet (r : List (String × Nat)) (k : String) (v : Nat) : List (String × Nat) :=
  if r.any (fun p => p.1 == k) then
    r.map (fun p => if p.1 == k then (k, v) else p)
  else r ++ [(k, v)]

/-- Abstract counting step the reduce performs on an ordinary status key. -/
def natCountStep (acc : List (String × Nat)) (issue : JiraIssue) : List (String × Nat) :=
  natRecSet acc issue.status ((natRecGet acc issue.status).getD 0 + 1)

/-- Abstract status count over the whole input. -/
def natStatusCount (issues : List JiraIssue) : List (String × Nat) :=
  issues.foldl natCountStep []

/-- Injection of an abstract counting record into the JS record model. -/
def numRecord (r : List (String × Nat)) : JsRecord :=
  r.map (fun p => (p.1, JsVal.num p.2))

/-- First occurrences of the elements of a list, in order. -/
def firstOccs : List String → List String
  | [] => []
  | x :: xs => x :: (firstOccs xs).filter (fun y => y != x)

/-- Status values of a list of issues, in order. -/
def statusesOf (issues : List JiraIssue) : List String :=
  issues.map JiraIssue.status

/-- Number of issues carrying a given status. -/
def countStatus (issues : List JiraIssue) (s : String) : Nat :=
  (issues.filter (fun i => i.status == s)).length

/-- Independent specification of the status groups: the statuses in order
of first occurrence, each with the number of issues carrying it. -/
def specStatusGroups (issues : List JiraIssue) : List (String × Nat) :=
  (firstOccs (statusesOf issues)).map (fun s => (s, countStatus issues s))

/-
Fixture environments and configurations used by the concrete witnesses.
-/

/-- Environment whose board has no active sprint. -/
def envNoSprint : TrackerEnv :=
  { boardSprints := fun _ => .ok (some [])
    sprintIssuesData := fun _ => .ok (some [])
    boardIssuesData := fun _ => .ok (some [])
    boardInfo := fun _ => .ok ()
    myselfOk := true }

/-- Raw issue with ordinary populated fields. -/
def rawNamed : JiraApiIssue :=
  { key := "K-2"
    fields := { summary := "t", status := ⟨"Open"⟩, assignee := some ⟨"Alice"⟩,
                issuetype := ⟨"Task"⟩, priority := some ⟨"High"⟩ } }

/-- Environment whose board has one active sprint holding one issue. -/
def envOneSprint : TrackerEnv :=
  { boardSprints := fun _ => .ok (some [⟨5, "Sprint 5"⟩])
    sprintIssuesData := fun _ => .ok (some [rawNamed])
    boardIssuesData := fun _ => .ok (some [])
    boardInfo := fun _ => .ok ()
    myselfOk := true }

/-- Raw issue whose assignee object carries an empty display name and whose
priority object carries an empty name. -/
def rawEmptyNames : JiraApiIssue :=
  { key := "K-1"
    fields := { summary := "s", status := ⟨"Open"⟩, assignee := some ⟨""⟩,
                issuetype := ⟨"Bug"⟩, priority := some ⟨""⟩ } }

/-- Environment whose active sprint holds the issue with empty names. -/
def envEmptyNames : TrackerEnv :=
  { boardSprints := fun _ => .ok (some [⟨5, "Sprint 5"⟩])
    sprintIssuesData := fun _ => .ok (some [rawEmptyNames])
    boardIssuesData := fun _ => .ok (some [])
    boardInfo := fun _ => .ok ()
    myselfOk := true }

/-- Raw issue with both nullable fields null. -/
def rawNulls : JiraApiIssue :=
  { key := "K-3"
    fields := { summary := "u", status := ⟨"Open"⟩, assignee := none,
                issuetype := ⟨"Bug"⟩, priority := none } }

/-- Reporter configuration with a single recipient set. -/
def cfgOneRecipient : ReporterConfig :=
  { senderName := "Sender", senderEmail := "sender@example.com",
    docEmail1 := some "doc1@example.com", docEmail2 := none, docEmail3 := none }

/-- Transport whose submission fails. -/
def mailFail : MailEnv :=
  { sendMailResult := .error "connect ETIMEDOUT" }

/-- Tool-server configuration with the username unset. -/
def cfgMissing : McpJiraConfig :=
  { protocol := "https", host := "jira.example.com", username := "",
    password := "secret", apiVersion := "2", strictSSL := true }

/-- Tracker stub for the tool server. -/
def envMcpStub : McpEnv :=
  { findIssue := fun _ => .ok none, getComments := fun _ => .ok none,
    renderDate := fun s => s }

/-- Tool-server configuration with every required value set. -/
def cfgValid : McpJiraConfig :=
  { protocol := "https", host := "jira.example.com", username := "user",
    password := "secret", apiVersion := "2", strictSSL := true }

/-- Tracker stub whose comments response carries an empty list. -/
def envNoComments : McpEnv :=
  { findIssue := fun _ => .ok none,
    getComments := fun _ => .ok (some { comments := some [] }),
    renderDate := fun s => s }

/-
Helper lemmas.
-/

theorem str_bne_eq (a b : String) : (a != b) = decide (a ≠ b) := by
  by_cases h : a = b <;> simp [h]

theorem firstOccs_mem (x : String) : ∀ l : List String, x ∈ firstOccs l ↔ x ∈ l := by
  intro l
  induction l with
  | nil => simp [firstOccs]
  | cons a t ih =>
    by_cases h : x = a <;> simp [firstOccs, List.mem_filter, ih, h]

theorem firstOccs_nodup : ∀ l : List String, (firstOccs l).Nodup := by
  intro l
  induction l with
  | nil => simp [firstOccs]
  | cons a t ih =>
    refine List.Nodup.cons ?_ (List.Nodup.filter _ ih)
    intro hmem
    have := (List.mem_filter.mp hmem).2
    simp at this

theorem firstOccs_filter (p : String → Bool) :
    ∀ l : List String, firstOccs (l.filter p) = (firstOccs l).filter p := by
  intro l
  induction l with
  | nil => simp [firstOccs]
  | cons a t ih =>
    by_cases h : p a
    · rw [List.filter_cons_of_pos h]
      simp only [firstOccs, ih, List.filter_cons_of_pos h]
      congr 1
      rw [List.filter_filter, List.filter_filter]
      apply List.filter_congr
      intro y _
      exact Bool.and_comm _ _
    · rw [List.filter_cons_of_neg h]
      simp only [firstOccs, ih, List.filter_cons_of_neg h]
      rw [List.filter_comm]
      symm
      apply List.filter_eq_self.mpr
      intro y hy
      have hp : p y = true := (List.mem_filter.mp hy).2
      have hne : y ≠ a := by
        intro he
        rw [he] at hp
        exact h hp
      simpa using hne

theorem sum_firstOccs_count : ∀ l : List String,
    ((firstOccs l).map (fun s => l.count s)).sum = l.length := by
  intro l
  induction l with
  | nil => rfl
  | cons a t ih =>
    simp only [firstOccs, List.map_cons, List.sum_cons]
    have hmapeq :
        ((firstOccs t).filter (fun y => y != a)).map (fun s => (a :: t).count s)
          = ((firstOccs t).filter (fun y => y != a)).map (fun s => t.count s) := by
      apply List.map_congr_left
      intro s hs
      have hb := (List.mem_filter.mp hs).2
      have hne : s ≠ a := by simpa using hb
      rw [List.count_cons]
      simp [hne, Ne.symm hne]
    rw [hmapeq, List.count_cons_self]
    by_cases hmem : a ∈ t
    · have hmemf : a ∈ firstOccs t := (firstOccs_mem a t).mpr hmem
      have hperm : List.Perm (firstOccs t) (a :: (firstOccs t).erase a) :=
        List.perm_cons_erase hmemf
      have herase : (firstOccs t).erase a = (firstOccs t).filter (fun y => y != a) := by
        rw [List.Nodup.erase_eq_filter (firstOccs_nodup t)]
      have hsum := (hperm.map (fun s => t.count s)).sum_eq
      rw [herase] at hsum
      simp only [List.map_cons, List.sum_cons] at hsum
      rw [ih] at hsum
      simp only [List.length_cons]
      omega
    · have hf : (firstOccs t).filter (fun y => y != a) = firstOccs t := by
        apply List.filter_eq_self.mpr
        intro s hs
        have hst : s ∈ t := (firstOccs_mem s t).mp hs
        have hne : s ≠ a := fun he => hmem (he ▸ hst)
        simpa using hne
      rw [hf, ih, List.count_eq_zero.mpr hmem]
      simp [Nat.add_comm]

theorem any_fst_iff {α : Type} (r : List (String × α)) (k : String) :
    (r.any (fun p => p.1 == k)) = true ↔ k ∈ recKeys r := by
  simp [List.any_eq_true, recKeys, List.mem_map]

theorem natRecSet_of_mem (r : List (String × Nat)) (k : String) (v : Nat) (h : k ∈ recKeys r) :
    natRecSet r k v = r.map (fun p => if p.1 == k then (k, v) else p) := by
  rw [natRecSet, if_pos ((any_fst_iff r k).mpr h)]

theorem natRecSet_of_not_mem (r : List (String × Nat)) (k : String) (v : Nat) (h : k ∉ recKeys r) :
    natRecSet r k v = r ++ [(k, v)] := by
  have hfalse : (r.any fun p => p.1 == k) = false := by
    rw [Bool.eq_false_iff]
    intro hc
    exact h ((any_fst_iff r k).mp hc)
  rw [natRecSet, hfalse]
  simp

theorem natRecGet_eq_none_of_not_mem (r : List (String × Nat)) (k : String) (h : k ∉ recKeys r) :
    natRecGet r k = none := by
  induction r with
  | nil => rfl
  | cons p t ih =>
    simp only [recKeys, List.map_cons, List.mem_cons] at h
    push_neg at h
    have h1 : (k == p.1) = false := by
      simp [h.1]
    simp only [natRecGet, List.lookup, h1]
    exact ih (by simp [recKeys, h.2])

theorem natRecGet_of_mem_nodup (r : List (String × Nat)) (k : String) (v : Nat)
    (hn : (recKeys r).Nodup) (h : (k, v) ∈ r) : natRecGet r k = some v := by
  induction r with
  | nil => simp at h
  | cons p t ih =>
    rcases List.mem_cons.mp h with he | ht
    · rw [← he]
      simp [natRecGet, List.lookup]
    · rw [recKeys, List.map_cons] at hn
      have hn2 := List.nodup_cons.mp hn
      have hk : k ∈ recKeys t := by
        simp only [recKeys, List.mem_map]
        exact ⟨(k, v), ht, rfl⟩
      have hne : k ≠ p.1 := by
        intro he2
        rw [← he2] at hn2
        exact hn2.1 hk
      have h1 : (k == p.1) = false := by simp [hne]
      simp only [natRecGet, List.lookup, h1]
      exact ih hn2.2 ht

theorem natRecKeys_recSet_mem (r : List (String × Nat)) (k : String) (v : Nat) (h : k ∈ recKeys r) :
    recKeys (natRecSet r k v) = recKeys r := by
  rw [natRecSet_of_mem r k v h]
  simp only [recKeys, List.map_map]
  apply List.map_congr_left
  intro p _
  by_cases hpk : p.1 = k
  · simp [Function.comp, hpk]
  · simp [Function.comp, hpk]

theorem countStatus_cons_self (i : JiraIssue) (t : List JiraIssue) :
    countStatus (i :: t) i.status = countStatus t i.status + 1 := by
  simp [countStatus, List.filter_cons]

theorem countStatus_cons_ne (i : JiraIssue) (t : List JiraIssue) (s : String)
    (h : i.status ≠ s) : countStatus (i :: t) s = countStatus t s := by
  simp [countStatus, List.filter_cons, h]

theorem natStatusCount_foldl_eq :
    ∀ (l : List JiraIssue) (acc : List (String × Nat)), (recKeys acc).Nodup →
      l.foldl natCountStep acc =
        acc.map (fun p => (p.1, p.2 + countStatus l p.1))
          ++ (firstOccs ((statusesOf l).filter (fun s => decide (s ∉ recKeys acc)))).map
              (fun s => (s, countStatus l s)) := by
  intro l
  induction l with
  | nil =>
    intro acc _
    simp [statusesOf, countStatus, firstOccs]
  | cons i t ih =>
    intro acc hn
    rw [List.foldl_cons]
    by_cases hm : i.status ∈ recKeys acc
    · have hkeys : recKeys (natCountStep acc i) = recKeys acc :=
        natRecKeys_recSet_mem _ _ _ hm
      have hnodup2 : (recKeys (natCountStep acc i)).Nodup := by
        rw [hkeys]; exact hn
      rw [ih (natCountStep acc i) hnodup2, hkeys]
      have hpiece1 : (natCountStep acc i).map (fun p => (p.1, p.2 + countStatus t p.1))
          = acc.map (fun p => (p.1, p.2 + countStatus (i :: t) p.1)) := by
        rw [natCountStep, natRecSet_of_mem _ _ _ hm, List.map_map]
        apply List.map_congr_left
        intro p hp
        by_cases hpk : p.1 = i.status
        · have hget : natRecGet acc i.status = some p.2 := by
            apply natRecGet_of_mem_nodup acc _ _ hn
            rw [← hpk]
            simpa using hp
          have hcs := countStatus_cons_self i t
          simp only [Function.comp_apply, hpk, beq_self_eq_true, if_pos, hget,
            Option.getD_some]
          rw [hcs]
          simp only [Prod.mk.injEq, true_and]
          omega
        · have hne : i.status ≠ p.1 := fun he => hpk he.symm
          have h1 : (p.1 == i.status) = false := by simp [hpk]
          simp [hpk, countStatus_cons_ne i t p.1 hne]
      have hfilter : (statusesOf (i :: t)).filter (fun s => decide (s ∉ recKeys acc))
          = (statusesOf t).filter (fun s => decide (s ∉ recKeys acc)) := by
        have : statusesOf (i :: t) = i.status :: statusesOf t := rfl
        rw [this, List.filter_cons_of_neg]
        simp [hm]
      have hpiece2 :
          (firstOccs ((statusesOf t).filter (fun s => decide (s ∉ recKeys acc)))).map
              (fun s => (s, countStatus t s))
            = (firstOccs ((statusesOf t).filter (fun s => decide (s ∉ recKeys acc)))).map
              (fun s => (s, countStatus (i :: t) s)) := by
        apply List.map_congr_left
        intro s hs
        have hsf := (firstOccs_mem s _).mp hs
        have hnotin : s ∉ recKeys acc := by
          have := (List.mem_filter.mp hsf).2
          simpa using this
        have hne : i.status ≠ s := fun he => hnotin (he ▸ hm)
        rw [countStatus_cons_ne i t s hne]
      rw [hpiece1, hfilter, ← hpiece2]
    · have hget : natRecGet acc i.status = none := natRecGet_eq_none_of_not_mem _ _ hm
      have hstep : natCountStep acc i = acc ++ [(i.status, 1)] := by
        rw [natCountStep, hget, natRecSet_of_not_mem _ _ _ hm]
        rfl
      have hkeys : recKeys (natCountStep acc i) = recKeys acc ++ [i.status] := by
        rw [hstep, recKeys, List.map_append]
        rfl
      have hnodup2 : (recKeys (natCountStep acc i)).Nodup := by
        rw [hkeys]
        simp [List.nodup_append, hn, hm]
      rw [ih (natCountStep acc i) hnodup2, hkeys, hstep]
      rw [List.map_append, List.append_assoc]
      congr 1
      · apply List.map_congr_left
        intro p hp
        have hne : i.status ≠ p.1 := by
          intro he
          apply hm
          rw [he]
          exact List.mem_map.mpr ⟨p, hp, rfl⟩
        rw [countStatus_cons_ne i t p.1 hne]
      · have hpred : ∀ s ∈ statusesOf t,
            (decide (s ∉ recKeys acc ++ [i.status]))
              = ((s != i.status) && decide (s ∉ recKeys acc)) := by
          intro s _
          by_cases h1 : s ∈ recKeys acc <;> by_cases h2 : s = i.status <;>
            simp [h1, h2]
        have hhead : ((i.status : String), 1 + countStatus t i.status)
            = (i.status, countStatus (i :: t) i.status) := by
          rw [countStatus_cons_self]
          simp only [Prod.mk.injEq, true_and]
          omega
        have htail :
            ((firstOccs ((statusesOf t).filter fun s => decide (s ∉ recKeys acc))).filter
                (fun y => y != i.status)).map (fun s => (s, countStatus t s))
              = ((firstOccs ((statusesOf t).filter fun s => decide (s ∉ recKeys acc))).filter
                (fun y => y != i.status)).map (fun s => (s, countStatus (i :: t) s)) := by
          apply List.map_congr_left
          intro s hs
          have hb := (List.mem_filter.mp hs).2
          have hne : i.status ≠ s := by
            intro he
            rw [← he] at hb
            simp at hb
          rw [countStatus_cons_ne i t s hne]
        have hx : firstOccs ((statusesOf t).filter (fun s => decide (s ∉ recKeys acc ++ [i.status])))
            = (firstOccs ((statusesOf t).filter (fun s => decide (s ∉ recKeys acc)))).filter
                (fun y => y != i.status) := by
          rw [List.filter_congr hpred, ← List.filter_filter, firstOccs_filter]
        rw [hx]
        have hstatuses : statusesOf (i :: t) = i.status :: statusesOf t := rfl
        rw [hstatuses, List.filter_cons_of_pos (by simp [hm])]
        rw [show firstOccs (i.status :: (statusesOf t).filter fun s => decide (s ∉ recKeys acc))
            = i.status :: (firstOccs ((statusesOf t).filter fun s => decide (s ∉ recKeys acc))).filter
                (fun y => y != i.status) from rfl]
        simp only [List.map_cons, List.map_nil, List.singleton_append]
        rw [hhead, htail]

theorem natStatusCount_eq_spec (issues : List JiraIssue) :
    natStatusCount issues = specStatusGroups issues := by
  have h := natStatusCount_foldl_eq issues [] (by simp [recKeys])
  simpa [natStatusCount, specStatusGroups, recKeys] using h

theorem countStatus_eq_count (issues : List JiraIssue) (s : String) :
    countStatus issues s = (statusesOf issues).count s := by
  induction issues with
  | nil => rfl
  | cons i t ih =>
    by_cases h : i.status = s
    · rw [← h, countStatus_cons_self]
      simp only [statusesOf, List.map_cons]
      rw [List.count_cons_self]
      rw [← h] at ih
      rw [ih]
      rfl
    · rw [countStatus_cons_ne i t s h]
      simp only [statusesOf, List.map_cons]
      rw [List.count_cons_of_ne (fun he => h he.symm), ih]
      rfl

theorem insertByIdx_perm {α : Type} (p : String × α) :
    ∀ l : List (String × α), List.Perm (insertByIdx p l) (p :: l) := by
  intro l
  induction l with
  | nil => simp [insertByIdx]
  | cons q qs ih =>
    rw [insertByIdx]
    by_cases h : idxVal p ≤ idxVal q
    · simp [h]
    · rw [if_neg h]
      exact (ih.cons q).trans (List.Perm.swap p q qs)

theorem sortByIdx_perm {α : Type} : ∀ l : List (String × α), List.Perm (l.foldr insertByIdx []) l := by
  intro l
  induction l with
  | nil => simp
  | cons q qs ih =>
    rw [List.foldr_cons]
    exact (insertByIdx_perm q _).trans (ih.cons q)

theorem jsEntries_perm {α : Type} (r : List (String × α)) : List.Perm (jsEntries r) r := by
  rw [jsEntries]
  have h2 : r.filter (fun p => (canonicalIndex p.1).isNone)
      = r.filter (fun p => !((canonicalIndex p.1).isSome)) := by
    apply List.filter_congr
    intro p _
    cases canonicalIndex p.1 <;> rfl
  rw [h2]
  exact ((sortByIdx_perm _).append (List.Perm.refl _)).trans
    (List.filter_append_perm _ r)

theorem recKeys_specStatusGroups (issues : List JiraIssue) :
    recKeys (specStatusGroups issues) = firstOccs (statusesOf issues) := by
  rw [specStatusGroups, recKeys, List.map_map]
  have hid : (Prod.fst ∘ fun s : String => (s, countStatus issues s)) = id := rfl
  rw [hid, List.map_id]

theorem natRecTotal_specStatusGroups (issues : List JiraIssue) :
    natRecTotal (specStatusGroups issues) = issues.length := by
  rw [natRecTotal, specStatusGroups, List.map_map]
  have hcongr : (firstOccs (statusesOf issues)).map
        (Prod.snd ∘ fun s => (s, countStatus issues s))
      = (firstOccs (statusesOf issues)).map (fun s => (statusesOf issues).count s) := by
    apply List.map_congr_left
    intro s _
    simp [Function.comp, countStatus_eq_count]
  rw [hcongr, sum_firstOccs_count]
  simp [statusesOf]

theorem lookup_numRecord (r : List (String × Nat)) (k : String) :
    (numRecord r).lookup k = (r.lookup k).map JsVal.num := by
  induction r with
  | nil => rfl
  | cons p t ih =>
    by_cases h : k = p.1
    · simp [numRecord, List.lookup, h]
    · have hb : (k == p.1) = false := by simp [h]
      simp only [numRecord, List.map_cons, List.lookup, hb]
      exact ih

theorem recKeys_numRecord (r : List (String × Nat)) :
    recKeys (numRecord r) = recKeys r := by
  rw [recKeys, numRecord, List.map_map]
  rfl

theorem any_numRecord (r : List (String × Nat)) (k : String) :
    ((numRecord r).any (fun p => p.1 == k)) = (r.any (fun p => p.1 == k)) := by
  induction r with
  | nil => rfl
  | cons p t ih =>
    simp only [numRecord, List.map_cons, List.any_cons] at ih ⊢
    rw [ih]

theorem recSet_numRecord (r : List (String × Nat)) (k : String) (v : Nat)
    (hk : k ≠ "__proto__") :
    recSet (numRecord r) k (.num v) = numRecord (natRecSet r k v) := by
  rw [recSet, if_neg hk, any_numRecord, natRecSet]
  by_cases h : (r.any fun p => p.1 == k) = true
  · rw [if_pos h, if_pos h]
    simp only [numRecord, List.map_map]
    apply List.map_congr_left
    intro p _
    by_cases hpk : p.1 = k <;> simp [Function.comp, hpk]
  · rw [if_neg h, if_neg h]
    simp [numRecord, List.map_append]
  
theorem countStep_numRecord (acc : List (String × Nat)) (i : JiraIssue)
    (hs : safeStatus i.status = true) :
    countStep (numRecord acc) i = numRecord (natCountStep acc i) := by
  rw [safeStatus, Bool.and_eq_true] at hs
  have hk : i.status ≠ "__proto__" := by
    intro he
    rw [he] at hs
    simp at hs
  have hpf : objectProtoFns.lookup i.status = none :=
    Option.isNone_iff_eq_none.mp hs.2
  rw [countStep, natCountStep]
  have hread : jsAdd1 (jsOrZero (recRead (numRecord acc) i.status))
      = .num ((natRecGet acc i.status).getD 0 + 1) := by
    rw [recRead, lookup_numRecord, natRecGet]
    cases h : acc.lookup i.status with
    | none => simp [hk, hpf, jsOrZero, jsAdd1]
    | some n => simp [jsOrZero, jsAdd1]
  rw [hread]
  exact recSet_numRecord acc i.status _ hk

theorem foldl_countStep_numRecord (l : List JiraIssue) :
    ∀ acc : List (String × Nat), (∀ s ∈ statusesOf l, safeStatus s = true) →
      l.foldl countStep (numRecord acc) = numRecord (l.foldl natCountStep acc) := by
  induction l with
  | nil =>
    intro acc _
    rfl
  | cons i t ih =>
    intro acc hsafe
    rw [List.foldl_cons, List.foldl_cons,
      countStep_numRecord acc i (hsafe i.status (by simp [statusesOf]))]
    refine ih (natCountStep acc i) ?_
    intro s hsm
    apply hsafe s
    simp only [statusesOf, List.map_cons, List.mem_cons]
    right
    exact hsm

theorem statusCount_safe (issues : List JiraIssue)
    (hsafe : ∀ s ∈ statusesOf issues, safeStatus s = true) :
    statusCount issues = numRecord (natStatusCount issues) := by
  rw [statusCount, natStatusCount]
  exact foldl_countStep_numRecord issues [] hsafe

theorem filterSome_numRecord (r : List (String × Nat)) :
    (numRecord r).filter (fun p => (canonicalIndex p.1).isSome)
      = numRecord (r.filter (fun p => (canonicalIndex p.1).isSome)) := by
  induction r with
  | nil => rfl
  | cons q t ih =>
    simp only [numRecord, List.map_cons, List.filter_cons] at ih ⊢
    by_cases h : (canonicalIndex q.1).isSome <;> simp [h, ih]

theorem filterNone_numRecord (r : List (String × Nat)) :
    (numRecord r).filter (fun p => (canonicalIndex p.1).isNone)
      = numRecord (r.filter (fun p => (canonicalIndex p.1).isNone)) := by
  induction r with
  | nil => rfl
  | cons q t ih =>
    simp only [numRecord, List.map_cons, List.filter_cons] at ih ⊢
    by_cases h : (canonicalIndex q.1).isNone <;> simp [h, ih]

theorem insertByIdx_numRecord (p : String × Nat) :
    ∀ l : List (String × Nat),
      insertByIdx (p.1, JsVal.num p.2) (numRecord l) = numRecord (insertByIdx p l) := by
  intro l
  induction l with
  | nil => rfl
  | cons q t ih =>
    rw [numRecord, List.map_cons, insertByIdx, insertByIdx]
    by_cases h : idxVal p ≤ idxVal q
    · have h2 : idxVal (p.1, JsVal.num p.2) ≤ idxVal ((q.1, JsVal.num q.2)) := h
      rw [if_pos h2, if_pos h]
      rfl
    · have h2 : ¬ idxVal (p.1, JsVal.num p.2) ≤ idxVal ((q.1, JsVal.num q.2)) := h
      rw [if_neg h2, if_neg h]
      rw [show numRecord t = List.map (fun p => (p.1, JsVal.num p.2)) t from rfl] at ih
      rw [ih]
      rfl

theorem sortByIdx_numRecord (l : List (String × Nat)) :
    (numRecord l).foldr insertByIdx [] = numRecord (l.foldr insertByIdx []) := by
  induction l with
  | nil => rfl
  | cons q t ih =>
    rw [numRecord, List.map_cons, List.foldr_cons, List.foldr_cons]
    rw [show List.map (fun p => (p.1, JsVal.num p.2)) t = numRecord t from rfl, ih]
    exact insertByIdx_numRecord q _

theorem jsEntries_numRecord (r : List (String × Nat)) :
    jsEntries (numRecord r) = numRecord (jsEntries r) := by
  rw [jsEntries, jsEntries, filterSome_numRecord, filterNone_numRecord,
    sortByIdx_numRecord]
  simp [numRecord, List.map_append]

theorem recTotal_numRecord (r : List (String × Nat)) :
    recTotal (numRecord r) = natRecTotal r := by
  rw [recTotal, numRecord, List.map_map, natRecTotal]
  rfl

/-
Claim theorems.
-/

/-- C1 counterexample: the claim asserts, for every list of Issues, that
the per-status summary lines mention exactly the distinct status values
and that the counts sum to the total.  A status named __proto__ falsifies
it: the assignment acc[status] invokes the inherited proto accessor, which
silently ignores a non-object value, so no own property is created, the
summary carries no line for that status, and the per-status counts sum to
0 while the total is 1. -/
theorem formatIssuesTable_proto_counterexample :
    (formatIssuesTable [⟨"P-9", "a", "__proto__", "x", "Bug", "High"⟩]).summary
        = "Total issues: 1\nIssues by Status:"
      ∧ jsEntries (statusCount [⟨"P-9", "a", "__proto__", "x", "Bug", "High"⟩])
        = ([] : JsRecord)
      ∧ recTotal (jsEntries (statusCount [⟨"P-9", "a", "__proto__", "x", "Bug", "High"⟩]))
        ≠ ([⟨"P-9", "a", "__proto__", "x", "Bug", "High"⟩] : List JiraIssue).length :=
  ⟨by decide, by decide, by decide⟩

/-- C1 (amended): for every list of Issues whose status values name no
Object.prototype member (neither the proto accessor key nor a built-in
method name), the summary formatIssuesTable produces is the total line, a
heading, and one line per entry of the status-count record in
Object.entries order; that entry list mentions exactly the distinct status
values occurring in the input, without repetition, every entry holds a
positive numeric count, and the counts sum to the length of the input
list. -/
theorem formatIssuesTable_summary_invariants (issues : List JiraIssue)
    (hsafe : ∀ s ∈ statusesOf issues, safeStatus s = true) :
    (formatIssuesTable issues).summary
        = String.intercalate "\n" (("Total issues: " ++ toString issues.length)
            :: "Issues by Status:"
            :: (jsEntries (statusCount issues)).map
                (fun p => p.1 ++ ": " ++ jsValRender p.2 ++ " issues"))
      ∧ recTotal (jsEntries (statusCount issues)) = issues.length
      ∧ (∀ s, s ∈ recKeys (jsEntries (statusCount issues)) ↔ s ∈ statusesOf issues)
      ∧ (recKeys (jsEntries (statusCount issues))).Nodup
      ∧ (∀ p ∈ jsEntries (statusCount issues), ∃ n : Nat, p.2 = JsVal.num n ∧ 0 < n) := by
  have hmain : statusCount issues = numRecord (specStatusGroups issues) := by
    rw [statusCount_safe issues hsafe, natStatusCount_eq_spec]
  have hent : jsEntries (statusCount issues)
      = numRecord (jsEntries (specStatusGroups issues)) := by
    rw [hmain, jsEntries_numRecord]
  have hperm : List.Perm (jsEntries (specStatusGroups issues)) (specStatusGroups issues) :=
    jsEntries_perm _
  have hkeysperm : List.Perm (recKeys (jsEntries (specStatusGroups issues)))
      (firstOccs (statusesOf issues)) := by
    rw [← recKeys_specStatusGroups]
    exact hperm.map Prod.fst
  refine ⟨rfl, ?_, ?_, ?_, ?_⟩
  · rw [hent, recTotal_numRecord, natRecTotal, (hperm.map Prod.snd).sum_eq]
    exact natRecTotal_specStatusGroups issues
  · intro s
    rw [hent, recKeys_numRecord, hkeysperm.mem_iff]
    exact firstOccs_mem s (statusesOf issues)
  · rw [hent, recKeys_numRecord]
    exact hkeysperm.nodup_iff.mpr (firstOccs_nodup (statusesOf issues))
  · intro p hp
    rw [hent] at hp
    obtain ⟨q, hq, hpq⟩ := List.mem_map.mp hp
    have hq2 : q ∈ specStatusGroups issues := hperm.mem_iff.mp hq
    obtain ⟨s, hs, hqs⟩ := List.mem_map.mp hq2
    refine ⟨q.2, ?_, ?_⟩
    · rw [← hpq]
    · have hmem : s ∈ statusesOf issues := (firstOccs_mem s _).mp hs
      have hpos := List.count_pos_iff.mpr hmem
      have hq22 : q.2 = countStatus issues s := by
        rw [← hqs]
      rw [hq22, countStatus_eq_count]
      exact hpos

/-- Witness for C1 at a concrete one-issue list with an ordinary status. -/
theorem formatIssuesTable_summary_invariants_witness :
    recTotal (jsEntries (statusCount
        [⟨"P-1", "Fix bug", "Open", "Alice", "Bug", "High"⟩])) = 1
      ∧ ("Open" ∈ recKeys (jsEntries (statusCount
          [⟨"P-1", "Fix bug", "Open", "Alice", "Bug", "High"⟩]))
        ↔ "Open" ∈ statusesOf [⟨"P-1", "Fix bug", "Open", "Alice", "Bug", "High"⟩])
      ∧ (recKeys (jsEntries (statusCount
          [⟨"P-1", "Fix bug", "Open", "Alice", "Bug", "High"⟩]))).Nodup :=
  ⟨(formatIssuesTable_summary_invariants
      [⟨"P-1", "Fix bug", "Open", "Alice", "Bug", "High"⟩] (by decide)).2.1,
    (formatIssuesTable_summary_invariants
      [⟨"P-1", "Fix bug", "Open", "Alice", "Bug", "High"⟩] (by decide)).2.2.1 "Open",
    (formatIssuesTable_summary_invariants
      [⟨"P-1", "Fix bug", "Open", "Alice", "Bug", "High"⟩] (by decide)).2.2.2.1⟩

theorem exceptBind_pure_map {ε α β : Type} (x : Except ε α) (f : α → β) :
    (x >>= fun a => (pure (f a) : Except ε β)) = x.map f := by
  cases x <;> rfl

/-- C3: when the tracker reports zero active sprints for the board, the
fetch returns the empty list without failing; when it reports one or more,
the fetch uses the first sprint of the response and requests its issues
with maxResults 100, so at most 100 issues come back. -/
theorem getActiveSprintIssues_spec (env : TrackerEnv) (b : String) :
    ((env.boardSprints b = .ok none ∨ env.boardSprints b = .ok (some [])) →
        getActiveSprintIssues env b = .ok [])
      ∧ (∀ first rest, env.boardSprints b = .ok (some (first :: rest)) →
          getActiveSprintIssues env b
              = (env.sprintIssueResp first.id 100).map
                  (fun resp => (resp.getD []).map transformIssue)
            ∧ ∀ issues, getActiveSprintIssues env b = .ok issues →
                issues.length ≤ 100) := by
  constructor
  · rintro (h | h) <;> rw [getActiveSprintIssues, h] <;> rfl
  · intro first rest h
    have heq : getActiveSprintIssues env b
        = (env.sprintIssueResp first.id 100).map
            (fun resp => (resp.getD []).map transformIssue) := by
      have h1 : getActiveSprintIssues env b
          = (env.sprintIssueResp first.id 100) >>=
              (fun resp => pure ((resp.getD []).map transformIssue)) := by
        rw [getActiveSprintIssues, h]
        rfl
      rw [h1]
      exact exceptBind_pure_map _ _
    refine ⟨heq, ?_⟩
    intro issues hiss
    rw [heq, TrackerEnv.sprintIssueResp] at hiss
    cases hd : env.sprintIssuesData first.id with
    | error e =>
      rw [hd] at hiss
      simp [Except.map] at hiss
    | ok dataopt =>
      rw [hd] at hiss
      cases dataopt with
      | none =>
        simp [Except.map] at hiss
        subst hiss
        simp
      | some data =>
        simp [Except.map] at hiss
        subst hiss
        simp [List.length_take]

/-- Witness for C3 at two concrete environments. -/
theorem getActiveSprintIssues_spec_witness :
    getActiveSprintIssues envNoSprint "7" = .ok []
      ∧ getActiveSprintIssues envOneSprint "7"
          = (envOneSprint.sprintIssueResp 5 100).map
              (fun resp => (resp.getD []).map transformIssue)
      ∧ [transformIssue rawNamed].length ≤ 100 :=
  ⟨(getActiveSprintIssues_spec envNoSprint "7").1 (Or.inr rfl),
    ((getActiveSprintIssues_spec envOneSprint "7").2 ⟨5, "Sprint 5"⟩ [] rfl).1,
    ((getActiveSprintIssues_spec envOneSprint "7").2 ⟨5, "Sprint 5"⟩ [] rfl).2
      [transformIssue rawNamed] rfl⟩

/-- C4 counterexample: a raw issue whose assignee is present with an empty
display name is mapped to the assignee Unassigned, not to the raw display
name, because the JS or-default also fires on the falsy empty string; the
priority behaves the same way.  The claim predicts the mapped assignee
equals the display name, which is the empty string here. -/
theorem transformIssue_empty_counterexample :
    getActiveSprintIssues envEmptyNames "9"
        = .ok [{ key := "K-1", summary := "s", status := "Open",
                 assignee := "Unassigned", issueType := "Bug", priority := "Medium" }]
      ∧ rawEmptyNames.fields.assignee.map ApiAssignee.displayName = some ""
      ∧ (transformIssue rawEmptyNames).assignee ≠ ""
      ∧ rawEmptyNames.fields.priority.map ApiName.name = some ""
      ∧ (transformIssue rawEmptyNames).priority ≠ "" := by
  exact ⟨rfl, rfl, by decide, rfl, by decide⟩

/-- C4 amended: the mapped assignee is Unassigned when the raw assignee is
null and also when its display name is the empty string, and is the raw
display name otherwise; the mapped priority is Medium when the raw priority
is null and also when its name is the empty string, and is the raw name
otherwise; both getActiveSprintIssues and getBoardIssues produce only
issues of this mapped form. -/
theorem transformIssue_defaults (raw : JiraApiIssue) :
    (raw.fields.assignee = none → (transformIssue raw).assignee = "Unassigned")
      ∧ (raw.fields.priority = none → (transformIssue raw).priority = "Medium")
      ∧ (∀ a, raw.fields.assignee = some a → a.displayName ≠ "" →
          (transformIssue raw).assignee = a.displayName)
      ∧ (∀ a, raw.fields.assignee = some a → a.displayName = "" →
          (transformIssue raw).assignee = "Unassigned")
      ∧ (∀ p, raw.fields.priority = some p → p.name ≠ "" →
          (transformIssue raw).priority = p.name)
      ∧ (∀ p, raw.fields.priority = some p → p.name = "" →
          (transformIssue raw).priority = "Medium")
      ∧ (∀ env b issues, getActiveSprintIssues env b = .ok issues →
          ∀ i ∈ issues, ∃ r, i = transformIssue r)
      ∧ (∀ env b issues, getBoardIssues env b = .ok issues →
          ∀ i ∈ issues, ∃ r, i = transformIssue r) := by
  refine ⟨?_, ?_, ?_, ?_, ?_, ?_, ?_, ?_⟩
  · intro h
    simp [transformIssue, jsStrOr, h]
  · intro h
    simp [transformIssue, jsStrOr, h]
  · intro a ha hne
    simp [transformIssue, jsStrOr, ha, hne]
  · intro a ha he
    simp [transformIssue, jsStrOr, ha, he]
  · intro p hp hne
    simp [transformIssue, jsStrOr, hp, hne]
  · intro p hp he
    simp [transformIssue, jsStrOr, hp, he]
  · intro env b issues hok i hi
    cases hs : env.boardSprints b with
    | error e =>
      rw [getActiveSprintIssues, hs] at hok
      simp [Bind.bind, Except.bind] at hok
    | ok sprints =>
      match sprints with
      | none =>
        rw [getActiveSprintIssues, hs] at hok
        have : issues = [] := by
          have := hok.symm
          simpa [Bind.bind, Except.bind, pure, Except.pure] using this
        rw [this] at hi
        simp at hi
      | some [] =>
        rw [getActiveSprintIssues, hs] at hok
        have : issues = [] := by
          have := hok.symm
          simpa [Bind.bind, Except.bind, pure, Except.pure] using this
        rw [this] at hi
        simp at hi
      | some (first :: rest) =>
        have heq := ((getActiveSprintIssues_spec env b).2 first rest hs).1
        rw [heq] at hok
        cases hr : env.sprintIssueResp first.id 100 with
        | error e =>
          rw [hr] at hok
          simp [Except.map] at hok
        | ok resp =>
          rw [hr] at hok
          simp [Except.map] at hok
          rw [← hok] at hi
          obtain ⟨r, _, hrr⟩ := List.mem_map.mp hi
          exact ⟨r, hrr.symm⟩
  · intro env b issues hok i hi
    have heq : getBoardIssues env b
        = (env.boardIssueResp b 100).map
            (fun resp => (resp.getD []).map transformIssue) := by
      have h1 : getBoardIssues env b
          = (env.boardIssueResp b 100) >>=
              (fun resp => pure ((resp.getD []).map transformIssue)) := by
        rw [getBoardIssues]
      rw [h1]
      exact exceptBind_pure_map _ _
    rw [heq] at hok
    cases hr : env.boardIssueResp b 100 with
    | error e =>
      rw [hr] at hok
      simp [Except.map] at hok
    | ok resp =>
      rw [hr] at hok
      simp [Except.map] at hok
      rw [← hok] at hi
      obtain ⟨r, _, hrr⟩ := List.mem_map.mp hi
      exact ⟨r, hrr.symm⟩

/-- Witness for the amended C4 at two concrete raw issues. -/
theorem transformIssue_defaults_witness :
    (transformIssue rawNulls).assignee = "Unassigned"
      ∧ (transformIssue rawNulls).priority = "Medium"
      ∧ (transformIssue rawNamed).assignee = "Alice"
      ∧ (transformIssue rawNamed).priority = "High" :=
  ⟨(transformIssue_defaults rawNulls).1 rfl,
    (transformIssue_defaults rawNulls).2.1 rfl,
    (transformIssue_defaults rawNamed).2.2.1 ⟨"Alice"⟩ rfl (by decide),
    (transformIssue_defaults rawNamed).2.2.2.2.1 ⟨"High"⟩ rfl (by decide)⟩

/-- C5: in the fetch pipeline of the batch reporter, once the connection
test and the board-info request succeed, an active-sprint result that is
the empty list triggers exactly one getBoardIssues invocation, and a
non-empty one triggers none. -/
theorem fetchJiraIssues_fallback (env : TrackerEnv) (b : String)
    (hconn : testConnection env = true) (hinfo : env.boardInfo b = .ok ()) :
    (getActiveSprintIssues env b = .ok [] →
        (fetchJiraIssuesFromBoardCounted env b).2 = 1)
      ∧ (∀ l, getActiveSprintIssues env b = .ok l → l ≠ [] →
          (fetchJiraIssuesFromBoardCounted env b).2 = 0) := by
  constructor
  · intro h
    cases hb : getBoardIssues env b with
    | error e => simp [fetchJiraIssuesFromBoardCounted, hconn, hinfo, h, hb]
    | ok l2 =>
      simp [fetchJiraIssuesFromBoardCounted, hconn, hinfo, h, hb]
      by_cases hl : l2 = [] <;> simp [hl]
  · intro l h hne
    have hempty : l.isEmpty = false := by
      cases l with
      | nil => exact absurd rfl hne
      | cons x xs => rfl
    simp [fetchJiraIssuesFromBoardCounted, hconn, hinfo, h, hempty]

/-- Witness for C5: the no-sprint environment invokes the fallback once,
the one-sprint environment never invokes it. -/
theorem fetchJiraIssues_fallback_witness :
    (fetchJiraIssuesFromBoardCounted envNoSprint "7").2 = 1
      ∧ (fetchJiraIssuesFromBoardCounted envOneSprint "7").2 = 0 :=
  ⟨(fetchJiraIssues_fallback envNoSprint "7" rfl rfl).1 rfl,
    (fetchJiraIssues_fallback envOneSprint "7" rfl rfl).2
      [transformIssue rawNamed] rfl (by simp)⟩

/-- C6: when the recipients resolve non-empty and the transport submission
fails, sendEmail catches the failure, logs the would-be content (the
recipients, the subject, the summary and the table), returns normally, and
makes exactly one send attempt. -/
theorem sendEmail_failure_logged (issues : List JiraIssue) (cfg : ReporterConfig)
    (env : MailEnv) (e : String)
    (hrec : resolveRecipients cfg ≠ []) (hfail : env.sendMailResult = .error e) :
    sendEmailCounted issues cfg env
      = (.failedLogged (resolveRecipients cfg) "Sprint Update"
          (formatIssuesTable issues).summary (formatIssuesTable issues).table, 1) := by
  have hempty : (resolveRecipients cfg).isEmpty = false := by
    cases hx : resolveRecipients cfg with
    | nil => exact absurd hx hrec
    | cons x xs => rfl
  simp [sendEmailCounted, sendEmailTry, hempty, hfail]

/-- Witness for C6 at a concrete configuration and failing transport. -/
theorem sendEmail_failure_logged_witness :
    sendEmailCounted [] cfgOneRecipient mailFail
      = (.failedLogged ["doc1@example.com"] "Sprint Update"
          "Total issues: 0\nIssues by Status:" "Issue\tTitle\tAssignee\tStatus\n", 1) := by
  have h := sendEmail_failure_logged [] cfgOneRecipient mailFail "connect ETIMEDOUT"
    (by decide) rfl
  rw [h]
  decide

theorem validateJiraConfig_missing (cfg : McpJiraConfig)
    (h : cfg.host = "" ∨ cfg.username = "" ∨ cfg.password = "") :
    ∃ m, validateJiraConfig cfg = some m := by
  by_cases h1 : cfg.host = ""
  · refine ⟨"JIRA_HOST environment variable is not set", ?_⟩
    simp [validateJiraConfig, h1]
  · by_cases h2 : cfg.username = ""
    · refine ⟨"JIRA_USERNAME environment variable is not set", ?_⟩
      simp [validateJiraConfig, h1, h2]
    · have h3 : cfg.password = "" := by tauto
      refine ⟨"JIRA_PASSWORD environment variable is not set", ?_⟩
      simp [validateJiraConfig, h1, h2, h3]

/-- C7: with any required configuration value (host, username or password)
missing, the read-description tool returns a text result that starts with
Configuration error, hence contains that substring, and performs no tracker
request. -/
theorem readDescription_config_error (cfg : McpJiraConfig) (env : McpEnv)
    (key : String) (h : cfg.host = "" ∨ cfg.username = "" ∨ cfg.password = "") :
    (∃ rest, (readDescription cfg env key).1 = .text ("Configuration error" ++ rest))
      ∧ (readDescription cfg env key).2 = 0 := by
  obtain ⟨m, hm⟩ := validateJiraConfig_missing cfg h
  have hsplit : ("Configuration error: " : String) = "Configuration error" ++ ": " := by
    decide
  constructor
  · refine ⟨": " ++ m ++ "\n\n", ?_⟩
    simp only [readDescription, hm]
    have heq : "Configuration error: " ++ m ++ "\n\n"
        = "Configuration error" ++ (": " ++ m ++ "\n\n") := by
      conv_lhs => rw [hsplit]
      rw [String.append_assoc "Configuration error" ": " m, String.append_assoc]
    rw [heq]
  · simp [readDescription, hm]

/-- Witness for C7 at a concrete configuration missing its username. -/
theorem readDescription_config_error_witness :
    (readDescription cfgMissing envMcpStub "ABC-1").1
        = .text "Configuration error: JIRA_USERNAME environment variable is not set\n\n"
      ∧ (readDescription cfgMissing envMcpStub "ABC-1").2 = 0 :=
  ⟨by decide,
    (readDescription_config_error cfgMissing envMcpStub "ABC-1" (Or.inr (Or.inl rfl))).2⟩

/-- C8: with valid configuration, a tracker response carrying zero comments
makes the read-comments tool return exactly the no-comments text for the
requested key; and on every input and every tracker outcome both tool
handlers return a single text content block, never a thrown error. -/
theorem readComments_no_comments (cfg : McpJiraConfig) (env : McpEnv) (key : String) :
    (validateJiraConfig cfg = none →
        ∀ resp, env.getComments key = .ok resp → zeroComments resp = true →
          (readComments cfg env key).1 = .text ("No comments found for issue " ++ key))
      ∧ (∀ k, ∃ s, (readComments cfg env k).1 = .text s)
      ∧ (∀ k, ∃ s, (readDescription cfg env k).1 = .text s) := by
  refine ⟨?_, ?_, ?_⟩
  · intro hv resp hresp hzero
    simp [readComments, hv, hresp, hzero]
  · intro k
    rw [readComments]
    cases validateJiraConfig cfg with
    | some m => exact ⟨_, rfl⟩
    | none =>
      cases env.getComments k with
      | error e => exact ⟨_, rfl⟩
      | ok resp =>
        by_cases hz : zeroComments resp = true
        · refine ⟨"No comments found for issue " ++ k, ?_⟩
          simp [hz]
        · refine ⟨"Comments for " ++ k ++ ":\n\n"
            ++ String.intercalate "\n"
              (((resp.getD { comments := none }).comments.getD []).map (formatComment env)), ?_⟩
          simp [hz]
  · intro k
    rw [readDescription]
    cases validateJiraConfig cfg with
    | some m => exact ⟨_, rfl⟩
    | none =>
      cases env.findIssue k with
      | error e => exact ⟨_, rfl⟩
      | ok resp =>
        cases resp with
        | none => exact ⟨_, rfl⟩
        | some issue => exact ⟨_, rfl⟩

/-- Witness for C8 at a concrete zero-comment environment. -/
theorem readComments_no_comments_witness :
    (readComments cfgValid envNoComments "ABC-1").1
      = .text "No comments found for issue ABC-1" := by
  have h := (readComments_no_comments cfgValid envNoComments "ABC-1").1 rfl
    (some { comments := some [] }) rfl rfl
  rw [h]
  decide

/-- C9 counterexample: the token YTpi is the base64 encoding of a colon
containing string, so the code passes it through as the whole credential;
the claim predicts the header encodes username colon token, which differs. -/
theorem constructAuthHeader_counterexample :
    constructAuthHeader "user" "YTpi" = "Basic YTpi"
      ∧ String.mk (base64EncodeBytes (strBytes ("user" ++ ":" ++ "YTpi"))) = "dXNlcjpZVHBp"
      ∧ constructAuthHeader "user" "YTpi"
          ≠ "Basic " ++ String.mk (base64EncodeBytes (strBytes ("user" ++ ":" ++ "YTpi"))) :=
  ⟨by decide, by decide, by decide⟩

/-- C9 amended: the header is the word Basic followed by the base64
encoding of username colon token whenever the token does not itself decode
to a colon-containing byte sequence; a token that does is passed through
after the word Basic; and the plain and the agile axios instances carry the
same Authorization header value. -/
theorem constructAuthHeader_spec (u t : String) :
    ((nodeBase64DecodeBytes t).contains 58 = false →
        constructAuthHeader u t
          = "Basic " ++ String.mk (base64EncodeBytes (strBytes (u ++ ":" ++ t))))
      ∧ ((nodeBase64DecodeBytes t).contains 58 = true →
        constructAuthHeader u t = "Basic " ++ t)
      ∧ ∀ h : Option String, jiraApiAuthHeader h = jiraAgileApiAuthHeader h := by
  refine ⟨?_, ?_, fun h => rfl⟩
  · intro hc
    rw [constructAuthHeader, if_neg (by rw [hc]; simp)]
  · intro hc
    rw [constructAuthHeader, if_pos hc]

/-- Witness for the amended C9 at two concrete tokens. -/
theorem constructAuthHeader_spec_witness :
    constructAuthHeader "user" "tok"
        = "Basic " ++ String.mk (base64EncodeBytes (strBytes ("user" ++ ":" ++ "tok")))
      ∧ constructAuthHeader "user" "YTpi" = "Basic " ++ "YTpi"
      ∧ jiraApiAuthHeader (some "Basic x") = jiraAgileApiAuthHeader (some "Basic x") :=
  ⟨(constructAuthHeader_spec "user" "tok").1 (by decide),
    (constructAuthHeader_spec "user" "YTpi").2.1 (by decide),
    (constructAuthHeader_spec "user" "YTpi").2.2 (some "Basic x")⟩

/-- C10: when the reachable fetch pipeline finds the active-sprint list and
the board fallback both empty, fetchJiraIssuesFromBoard fails with the
no-issues error, the run aborts, and sendEmail is never invoked. -/
theorem emptyBoard_aborts (rv : Option String) (env : TrackerEnv)
    (cfg : ReporterConfig) (mail : MailEnv)
    (hconn : testConnection env = true)
    (hinfo : env.boardInfo (rapidViewOf rv) = .ok ())
    (hact : getActiveSprintIssues env (rapidViewOf rv) = .ok [])
    (hboard : getBoardIssues env (rapidViewOf rv) = .ok []) :
    fetchJiraIssuesFromBoard env (rapidViewOf rv)
        = .error "No issues found on the board"
      ∧ getJiraIssuesCounted rv env cfg mail
        = (.error "No issues found on the board", 0) := by
  have hfetch : fetchJiraIssuesFromBoard env (rapidViewOf rv)
      = .error "No issues found on the board" := by
    simp [fetchJiraIssuesFromBoard, fetchJiraIssuesFromBoardCounted,
      hconn, hinfo, hact, hboard]
  refine ⟨hfetch, ?_⟩
  simp [getJiraIssuesCounted, hfetch]

/-- Witness for C10 at a concrete empty board. -/
theorem emptyBoard_aborts_witness :
    fetchJiraIssuesFromBoard envNoSprint (rapidViewOf none)
        = .error "No issues found on the board"
      ∧ getJiraIssuesCounted none envNoSprint cfgOneRecipient mailFail
        = (.error "No issues found on the board", 0) :=
  emptyBoard_aborts none envNoSprint cfgOneRecipient mailFail rfl rfl rfl rfl

end EmailReminder
